import Mathlib

/-!
Verification development for the soundscapes audio engine
(soundscapes-app/src-tauri/src/lib.rs).

The definitions below are shallow embeddings of the engine's data
structures and handlers.  Machine floats are modelled as exact rationals
(reals where transcendental functions occur), `usize` arithmetic is
modelled as naturals with an explicit wrap at 2 ^ 64, and the external
collaborators (file system, decoder, sink allocation, random number
generator) are passed in as explicit oracle arguments.
-/

namespace Soundscapes

/-! ## Lock-free sample ring (FftSampleBuffer, lib.rs 431-469) -/

/-- Size of the machine word modulus for usize arithmetic. -/
def U64 : ℕ := 2 ^ 64

/-- Wrapping addition on usize values. -/
def wadd (a b : ℕ) : ℕ := (a + b) % U64

/-- Wrapping subtraction on usize values (a assumed already reduced). -/
def wsub (a b : ℕ) : ℕ := (a + U64 - b % U64) % U64

/-- The sample ring: 2048 slots of f32 bit patterns plus a write index.
The store/load of IEEE bit patterns round-trips, so slots hold the sample
values directly; slots outside 0..2047 are never read. -/
structure FftSampleBuffer where
  buffer : ℕ → ℚ
  write_pos : ℕ

/-- push (lib.rs 447-450): fetch-add the index, store at index mod 2048. -/
def FftSampleBuffer.push (b : FftSampleBuffer) (x : ℚ) : FftSampleBuffer :=
  { buffer := Function.update b.buffer (b.write_pos % 2048) x
    write_pos := wadd b.write_pos 1 }

/-- get_latest (lib.rs 452-461): snapshot the write index and read the
preceding count entries in order. -/
def FftSampleBuffer.get_latest (b : FftSampleBuffer) (count : ℕ) : List ℚ :=
  (List.range count).map fun i =>
    b.buffer (wadd (wsub (wadd b.write_pos 2048) count) i % 2048)

/-- clear (lib.rs 463-468): reset the index and zero every entry. -/
def FftSampleBuffer.clear (_b : FftSampleBuffer) : FftSampleBuffer :=
  { buffer := fun _ => 0, write_pos := 0 }

/-- The freshly constructed ring (lib.rs 440-445): zeroed slots, index 0. -/
def FftSampleBuffer.init : FftSampleBuffer :=
  { buffer := fun _ => 0, write_pos := 0 }

/-- A sequence of pushes applied in order. -/
def pushList (b : FftSampleBuffer) (xs : List ℚ) : FftSampleBuffer :=
  xs.foldl FftSampleBuffer.push b

/-! ## Ambient settings record (lib.rs 306-338) -/

structure AmbientSettings where
  volume : ℚ
  pitch : ℚ
  pan : ℚ
  low_pass_freq : ℚ
  reverb_type : String
  algorithmic_reverb : ℚ
  repeat_min : ℕ
  repeat_max : ℕ
  pause_min : ℕ
  pause_max : ℕ
  volume_variation : ℚ
deriving DecidableEq

/-- Default settings (lib.rs 322-338). -/
def AmbientSettings.default : AmbientSettings :=
  { volume := 1, pitch := 1, pan := 0, low_pass_freq := 22000
    reverb_type := "off", algorithmic_reverb := 0
    repeat_min := 1, repeat_max := 1, pause_min := 0, pause_max := 0
    volume_variation := 0 }

/-! ## Effective ambient volume (calc_ambient_volume, lib.rs 1022-1044)

The argument r models the rand random f32 draw in [0, 1). -/

def calc_ambient_volume (settings : AmbientSettings)
    (ambient_master master : ℚ) (is_ambient_muted is_master_muted : Bool)
    (duck_progress duck_amount : ℚ) (r : ℚ) : ℚ :=
  if is_ambient_muted || is_master_muted then 0
  else
    let variation : ℚ :=
      if 0 < settings.volume_variation then
        min 2 (max 0 (1 + (r - 1/2) * 2 * settings.volume_variation))
      else 1
    let base_vol := settings.volume * ambient_master * master * variation
    base_vol * (1 - duck_progress * duck_amount)

/-! ## Stereo pan stage (PannedSource, lib.rs 596-650) -/

structure PannedState where
  pan : ℚ
  channels : ℕ
  current_channel : ℕ
deriving DecidableEq

/-- Constructor (lib.rs 609-617): clamps pan to [-1, 1], starts on channel 0. -/
def PannedState.new (pan : ℚ) (channels : ℕ) : PannedState :=
  { pan := min 1 (max (-1) pan), channels := channels, current_channel := 0 }

/-- One sample through the pan stage (lib.rs 626-649). -/
def pannedNext (st : PannedState) (x : ℚ) : ℚ × PannedState :=
  if st.channels = 2 then
    let channel := st.current_channel
    let st' := { st with current_channel := (st.current_channel + 1) % st.channels }
    let gain : ℚ :=
      if channel = 0 then (if st.pan ≤ 0 then 1 else 1 - st.pan)
      else (if 0 ≤ st.pan then 1 else 1 + st.pan)
    (x * gain, st')
  else (x, st)

/-- The pan stage run over a whole sample stream. -/
def pannedRun (st : PannedState) : List ℚ → List ℚ
  | [] => []
  | x :: xs =>
      let p := pannedNext st x
      p.1 :: pannedRun p.2 xs

/-- The per-channel gain of the spec: frame channel 0 gets 1 when pan is
nonpositive and 1 - pan otherwise; frame channel 1 gets 1 when pan is
nonnegative and 1 + pan otherwise. -/
def panGain (p : ℚ) (c : ℕ) : ℚ :=
  if c % 2 = 0 then (if p ≤ 0 then 1 else 1 - p)
  else (if 0 ≤ p then 1 else 1 + p)

/-- Spec-side pan: every sample scaled by the gain of its frame channel. -/
def panApply (p : ℚ) (c : ℕ) : List ℚ → List ℚ
  | [] => []
  | x :: xs => x * panGain p c :: panApply p (c + 1) xs

/-! ## Schroeder reverb stage (ReverbSource, lib.rs 745-892) -/

/-- A delay-line ring buffer with its write position. -/
structure RingBuf where
  buf : List ℚ
  pos : ℕ
deriving DecidableEq

/-- One comb filter update with feedback 0.95 (lib.rs 842-850): emit the
delayed sample and store input plus feedback times delayed. -/
def combStep (x : ℚ) (r : RingBuf) : ℚ × RingBuf :=
  let delayed := r.buf.getD r.pos 0
  let new_val := x + delayed * (95/100)
  (delayed, { buf := r.buf.set r.pos new_val, pos := (r.pos + 1) % r.buf.length })

/-- One allpass filter update with coefficient 0.7 (lib.rs 853-865). -/
def allpassStep (x : ℚ) (r : RingBuf) : ℚ × RingBuf :=
  let delayed := r.buf.getD r.pos 0
  let new_val := x + delayed * (7/10)
  (delayed - (7/10) * new_val,
   { buf := r.buf.set r.pos new_val, pos := (r.pos + 1) % r.buf.length })

/-- The four parallel combs: sum of their outputs plus updated lines. -/
def combBank (x : ℚ) (combs : List RingBuf) : ℚ × List RingBuf :=
  let results := combs.map (combStep x)
  ((results.map Prod.fst).sum, results.map Prod.snd)

/-- The series allpass chain. -/
def allpassChain (x : ℚ) : List RingBuf → ℚ × List RingBuf
  | [] => (x, [])
  | r :: rest =>
      let p := allpassStep x r
      let q := allpassChain p.1 rest
      (q.1, p.2 :: q.2)

/-- Per-channel filter state: four comb lines then two allpass lines. -/
structure ChannelReverb where
  combs : List RingBuf
  allpasses : List RingBuf
deriving DecidableEq

/-- Wet signal of one channel: parallel combs averaged by the 0.25 factor
(lib.rs 851), then the series allpasses. -/
def channelWet (x : ℚ) (ch : ChannelReverb) : ℚ × ChannelReverb :=
  let c := combBank x ch.combs
  let comb_avg := c.1 * (1/4)
  let a := allpassChain comb_avg ch.allpasses
  (a.1, { combs := c.2, allpasses := a.2 })

structure ReverbState where
  mix : ℚ
  channels : ℕ
  current_channel : ℕ
  chans : List ChannelReverb
deriving DecidableEq

/-- Comb delay lengths in samples (lib.rs 769-774), at least one slot each
(lib.rs 791). -/
def combDelaysOf (sample_rate : ℕ) : List ℕ :=
  [max 1 ((797/10000 * (sample_rate : ℚ)).floor.toNat)
  , max 1 ((903/10000 * (sample_rate : ℚ)).floor.toNat)
  , max 1 ((1100/10000 * (sample_rate : ℚ)).floor.toNat)
  , max 1 ((1277/10000 * (sample_rate : ℚ)).floor.toNat)]

/-- Allpass delay lengths in samples (lib.rs 777-780, 800). -/
def allpassDelaysOf (sample_rate : ℕ) : List ℕ :=
  [max 1 ((220/10000 * (sample_rate : ℚ)).floor.toNat)
  , max 1 ((74/10000 * (sample_rate : ℚ)).floor.toNat)]

/-- Constructor (lib.rs 764-818): clamp mix, zeroed per-channel lines. -/
def ReverbState.new (mix : ℚ) (channels sample_rate : ℕ) : ReverbState :=
  { mix := min 1 (max 0 mix), channels := channels, current_channel := 0
    chans := List.replicate channels
      { combs := (combDelaysOf sample_rate).map fun d => { buf := List.replicate d 0, pos := 0 }
        allpasses := (allpassDelaysOf sample_rate).map fun d => { buf := List.replicate d 0, pos := 0 } } }

/-- One sample through the reverb stage (lib.rs 826-870): short-circuit
below the 0.001 mix threshold, otherwise dry wet mixing with wet gain 2.5. -/
def reverbNext (st : ReverbState) (x : ℚ) : ℚ × ReverbState :=
  if st.mix < 1/1000 then
    (x, { st with current_channel := (st.current_channel + 1) % st.channels })
  else
    let ch := st.current_channel
    let chState := st.chans.getD ch { combs := [], allpasses := [] }
    let w := channelWet x chState
    let out := x * (1 - st.mix) + w.1 * st.mix * (5/2)
    (out, { st with current_channel := (ch + 1) % st.channels
                    chans := st.chans.set ch w.2 })

/-- The reverb stage run over a whole sample stream. -/
def reverbRun (st : ReverbState) : List ℚ → List ℚ
  | [] => []
  | x :: xs =>
      let p := reverbNext st x
      p.1 :: reverbRun p.2 xs

/-! ## FFT preparation and binning (engine loop, lib.rs 1414-1474)

The forward FFT itself is the external rustfft library; what the engine
contributes is the construction of the complex input buffer from the ring
snapshot and the magnitude binning of the result, modelled here over the
reals. -/

/-- The Hann window coefficient used for the music ring (lib.rs 1420). -/
noncomputable def hannWindow (i : ℕ) : ℝ :=
  1/2 * (1 - Real.cos (2 * Real.pi * (i : ℝ) / 1023))

/-- Real parts of the FFT input built from the music ring snapshot
(lib.rs 1417-1422): sample times Hann window. -/
noncomputable def musicFftInput (samples : List ℝ) : List ℝ :=
  samples.mapIdx fun i s => s * hannWindow i

/-- Real parts of the FFT input built from the ambient ring snapshot
(lib.rs 1449-1456): the raw samples, no window. -/
def ambientFftInput (samples : List ℝ) : List ℝ :=
  samples.map fun s => s

/-- Mean magnitude of bucket i over its 8 bins, guard included
(lib.rs 1428-1439); norms is the magnitude list of the FFT output. -/
noncomputable def binMag (norms : List ℝ) (i : ℕ) : ℝ :=
  (((List.range 8).map fun j =>
      if i * 8 + j < 512 then norms.getD (i * 8 + j) 0 else 0).sum) / 8

/-- Logarithmic remap with clamp (lib.rs 1441-1442). -/
noncomputable def logRemap (m : ℝ) : ℝ :=
  min 1 (max 0 (Real.log (1 + m * 50) / 5))

/-- The published 64-bin spectrum computed from the FFT magnitudes
(lib.rs 1430-1443, identically 1459-1472 for the ambient ring). -/
noncomputable def spectrumOf (norms : List ℝ) : List ℝ :=
  (List.range 64).map fun i => logRemap (binMag norms i)

/-! ## A/B ambient loop state machine (lib.rs 2186-2328)

The per-voice scheduler state; the sink and the DSP chain construction do
not influence the transition structure, and the random draws and the file
load outcome enter as oracle arguments. -/

structure AmbMachineState where
  is_playing_a : Bool
  loops_remaining : ℕ
  pause_remaining : ℚ
  is_paused : Bool
deriving DecidableEq

/-- Which file the tick enqueued, if any. -/
inductive EnqFile
  | A
  | B
deriving DecidableEq

/-- Model of rng.gen_range (lo..=hi) for lo ≤ hi, with r the raw draw. -/
def genRange (r lo hi : ℕ) : ℕ := lo + r % (hi + 1 - lo)

/-- One sink-empty event of the A/B state machine (lib.rs 2190-2327).
rPause and rLoops are the raw draws used by gen_range for the pause and
the loop count; load_ok tells whether the file bytes were obtained and
decoded (every appended chain is reported through the second component). -/
def abTick (settings : AmbientSettings) (s : AmbMachineState)
    (rPause rLoops : ℕ) (load_ok : Bool) : AmbMachineState × Option EnqFile :=
  if s.is_paused then
    let pr := s.pause_remaining - 1/20
    if pr ≤ 0 then
      ({ s with is_paused := false, pause_remaining := pr
                loops_remaining := genRange rLoops settings.repeat_min settings.repeat_max
                is_playing_a := true },
       if load_ok then some EnqFile.A else none)
    else ({ s with pause_remaining := pr }, none)
  else if s.is_playing_a then
    ({ s with is_playing_a := false }, if load_ok then some EnqFile.B else none)
  else
    let loops := s.loops_remaining - 1
    if loops = 0 then
      let pause_loops := genRange rPause settings.pause_min settings.pause_max
      if 0 < pause_loops then
        ({ s with loops_remaining := loops, is_paused := true
                  pause_remaining := (pause_loops : ℚ) * 5 }, none)
      else
        ({ s with loops_remaining := genRange rLoops settings.repeat_min settings.repeat_max
                  is_playing_a := true },
         if load_ok then some EnqFile.A else none)
    else
      ({ s with loops_remaining := loops, is_playing_a := true },
       if load_ok then some EnqFile.A else none)

/-- Voice state right after a successful PlayAmbient (lib.rs 1756-1769):
playing file A with a fresh loops draw, not paused. -/
def abInit (settings : AmbientSettings) (r : ℕ) : AmbMachineState :=
  { is_playing_a := true
    loops_remaining := genRange r settings.repeat_min settings.repeat_max
    pause_remaining := 0
    is_paused := false }

/-- The machine iterated over n sink-empty events whose loads succeed;
oracle n supplies the (pause, loops) draws of event n. -/
def abIterate (settings : AmbientSettings) (oracle : ℕ → ℕ × ℕ)
    (s : AmbMachineState) : ℕ → AmbMachineState
  | 0 => s
  | n + 1 =>
      (abTick settings (abIterate settings oracle s n)
        (oracle n).1 (oracle n).2 true).1

/-! ## Engine command handlers touching the ambient maps
(lib.rs 1490-1553, 1717-1792, 2032-2082)

Sinks are modelled by numeric handles drawn from a counter; a stopped sink
handle is pushed onto stopped_sinks.  Maps keyed by voice id are
association lists.  Oracle booleans stand for the success of the external
sink allocation and of the file open / decode. -/

def alookup {α : Type} : List (String × α) → String → Option α
  | [], _ => none
  | (k, v) :: rest, key => if k = key then some v else alookup rest key

def ainsert {α : Type} (m : List (String × α)) (key : String) (v : α) :
    List (String × α) :=
  if (alookup m key).isSome then
    m.map fun q => if q.1 = key then (key, v) else q
  else m ++ [(key, v)]

def aerase {α : Type} (m : List (String × α)) (key : String) :
    List (String × α) :=
  m.filter fun q => q.1 ≠ key

def akeys {α : Type} (m : List (String × α)) : List String :=
  m.map Prod.fst

structure CurrentTrackInfo where
  id : String
  title : String
  artist : String
  album : String
  file_path : String
deriving DecidableEq

structure ActiveAmbientInfo where
  id : String
  file_a : String
  file_b : String
  settings : AmbientSettings
deriving DecidableEq

/-- Engine-internal per-voice record (lib.rs 973-982); the sink is its
numeric handle. -/
structure AmbientState where
  sink : ℕ
  file_a : String
  file_b : String
  settings : AmbientSettings
  is_playing_a : Bool
  loops_remaining : ℕ
  pause_remaining : ℚ
  is_paused : Bool
deriving DecidableEq

/-- The engine-thread state the modelled handlers read and write.  Music
progress bookkeeping, the caches and the per-sink volumes are orthogonal
to the claims and omitted; the scheduler-cadence fade tables behave like
the modelled ones and are omitted too. -/
structure Engine where
  current_sink : Option ℕ
  current_track : Option CurrentTrackInfo
  fade_out_active : Bool
  ambient_states : List (String × AmbientState)
  active_ambients : List (String × ActiveAmbientInfo)
  fading_out : List (String × ℚ)
  fading_in : List (String × ℚ)
  stopped_sinks : List ℕ
  next_sink : ℕ
deriving DecidableEq

def initEngine : Engine :=
  { current_sink := none, current_track := none, fade_out_active := false
    ambient_states := [], active_ambients := [], fading_out := []
    fading_in := [], stopped_sinks := [], next_sink := 0 }

/-- The Play handler (lib.rs 1490-1553).  The old sink is stopped, fade
state reset and the track info replaced before the file is opened;
load_ok tells whether File open, Decoder new and Sink try_new all
succeeded, in which case a fresh sink starts playing. -/
def stepPlay (e : Engine) (load_ok : Bool) (track_info : CurrentTrackInfo) :
    Engine :=
  let e1 : Engine :=
    { e with
      stopped_sinks :=
        match e.current_sink with
        | some s => s :: e.stopped_sinks
        | none => e.stopped_sinks
      current_sink := none
      fade_out_active := false
      current_track := some track_info }
  if load_ok then
    { e1 with current_sink := some e1.next_sink, next_sink := e1.next_sink + 1 }
  else e1

/-- The PlayAmbient handler (lib.rs 1717-1786).  Any existing voice with
this id is removed and its sink stopped first (1719-1721); sink_ok models
Sink try_new and load_ok the byte fetch plus decode; r is the raw draw
for the initial loops count.  Note that neither branch touches fading_out
and that the failure branches leave active_ambients untouched. -/
def stepPlayAmbient (e : Engine) (sink_ok load_ok : Bool) (r : ℕ)
    (id file_a file_b : String) (settings : AmbientSettings) : Engine :=
  let e1 : Engine :=
    match alookup e.ambient_states id with
    | some old =>
        { e with ambient_states := aerase e.ambient_states id
                 stopped_sinks := old.sink :: e.stopped_sinks }
    | none => e
  if sink_ok then
    if load_ok then
      let st : AmbientState :=
        { sink := e1.next_sink, file_a := file_a, file_b := file_b
          settings := settings, is_playing_a := true
          loops_remaining := genRange r settings.repeat_min settings.repeat_max
          pause_remaining := 0, is_paused := false }
      { e1 with
        next_sink := e1.next_sink + 1
        fading_in := ainsert e1.fading_in id 0
        ambient_states := ainsert e1.ambient_states id st
        active_ambients := ainsert e1.active_ambients id
          { id := id, file_a := file_a, file_b := file_b, settings := settings } }
    else e1
  else e1

/-- The StopAmbient handler (lib.rs 1787-1792): start a fade-out unless
one is already running. -/
def stepStopAmbient (e : Engine) (id : String) : Engine :=
  if (alookup e.ambient_states id).isSome && (alookup e.fading_out id).isNone then
    { e with fading_out := ainsert e.fading_out id 0 }
  else e

/-- The fade bookkeeping of one timeout tick (lib.rs 2032-2082): advance
every fade-out by 1/4, stop and drop the voices whose fade-out reached 1
from both maps, then advance every fade-in and drop the completed entries.
The sink volume writes and the volume transition table do not move keys
and are omitted. -/
def stepFadeTick (e : Engine) : Engine :=
  let advanced := e.fading_out.map fun q => (q.1, q.2 + (1:ℚ)/4)
  let completed := (advanced.filter fun q => (1:ℚ) ≤ q.2).map Prod.fst
  let fading_out' := advanced.filter fun q => q.2 < (1:ℚ)
  let removed_sinks := completed.filterMap fun id =>
    (alookup e.ambient_states id).map AmbientState.sink
  let ambient' := completed.foldl (fun m id => aerase m id) e.ambient_states
  let active' := completed.foldl (fun m id => aerase m id) e.active_ambients
  let advanced_in := e.fading_in.map fun q => (q.1, q.2 + (1:ℚ)/4)
  let fading_in' := advanced_in.filter fun q => q.2 < (1:ℚ)
  { e with fading_out := fading_out'
           fading_in := fading_in'
           ambient_states := ambient'
           active_ambients := active'
           stopped_sinks := removed_sinks ++ e.stopped_sinks }

/-! ## Concrete fixtures used by the counterexample theorems -/

def idRain : String := "rain"

def idThunder : String := "thunder"

def trackOne : CurrentTrackInfo :=
  { id := "t1", title := "First", artist := "A", album := "X", file_path := "a.mp3" }

def trackTwo : CurrentTrackInfo :=
  { id := "t2", title := "Second", artist := "A", album := "X", file_path := "missing.mp3" }

/-- Engine after a successful music Play of trackOne. -/
def engineAfterPlayOk : Engine := stepPlay initEngine true trackOne

/-- Engine after a subsequent music Play whose file fails to open. -/
def engineAfterPlayFail : Engine := stepPlay engineAfterPlayOk false trackTwo

/-- Settings with a nonzero volume variation for the C4 counterexample. -/
def settingsVar : AmbientSettings :=
  { AmbientSettings.default with volume_variation := 1/2 }

/-- Engine after a successful PlayAmbient of id rain. -/
def engineRainOk : Engine :=
  stepPlayAmbient initEngine true true 0 idRain "ra.ogg" "rb.ogg"
    AmbientSettings.default

/-- Engine after re-sending PlayAmbient for rain with a failing file:
the sink allocation succeeds, the byte fetch or decode does not. -/
def engineRainFail : Engine :=
  stepPlayAmbient engineRainOk true false 0 idRain "ra.ogg" "rb.ogg"
    AmbientSettings.default

/-- PlayAmbient thunder, StopAmbient thunder, one timeout tick. -/
def engineThunder3 : Engine :=
  stepFadeTick (stepStopAmbient
    (stepPlayAmbient initEngine true true 0 idThunder "ta.ogg" "tb.ogg"
      AmbientSettings.default) idThunder)

/-- Replaying thunder while its fade-out entry is at progress 1/4. -/
def engineThunder4 : Engine :=
  stepPlayAmbient engineThunder3 true true 0 idThunder "ta.ogg" "tb.ogg"
    AmbientSettings.default

/-- Three further timeout ticks after the replay. -/
def engineThunder7 : Engine :=
  stepFadeTick (stepFadeTick (stepFadeTick engineThunder4))

/-! Helper lemmas about the sample ring. -/

theorem U64_pos : 0 < U64 := by norm_num [U64]

theorem pushList_append_singleton (b : FftSampleBuffer) (xs : List ℚ) (x : ℚ) :
    pushList b (xs ++ [x]) = (pushList b xs).push x := by
  simp [pushList, List.foldl_append]

theorem pushList_write_pos (b : FftSampleBuffer) (xs : List ℚ)
    (hw : b.write_pos < U64) :
    (pushList b xs).write_pos = (b.write_pos + xs.length) % U64 := by
  induction xs generalizing b with
  | nil => simpa [pushList] using (Nat.mod_eq_of_lt hw).symm
  | cons y ys ih =>
      have h1 : (FftSampleBuffer.push b y).write_pos = (b.write_pos + 1) % U64 := rfl
      have h2 : (FftSampleBuffer.push b y).write_pos < U64 :=
        h1 ▸ Nat.mod_lt _ U64_pos
      calc (pushList b (y :: ys)).write_pos
          = (pushList (b.push y) ys).write_pos := rfl
        _ = ((b.push y).write_pos + ys.length) % U64 := ih (b.push y) h2
        _ = ((b.write_pos + 1) % U64 + ys.length) % U64 := by rw [h1]
        _ = (b.write_pos + 1 + ys.length) % U64 := Nat.mod_add_mod _ _ _
        _ = (b.write_pos + (y :: ys).length) % U64 := by
            congr 1
            simp [List.length_cons]
            omega

theorem slot_mod_ne (w d : ℕ) (h1 : 0 < d) (h2 : d < 2048) :
    (w + 2048 - d) % 2048 ≠ w % 2048 := by
  intro h
  have hle : w ≤ w + 2048 - d := by omega
  have hdvd : (2048 : ℕ) ∣ (w + 2048 - d) - w :=
    (Nat.modEq_iff_dvd' hle).mp h.symm
  have heq : (w + 2048 - d) - w = 2048 - d := by omega
  rw [heq] at hdvd
  exact absurd (Nat.le_of_dvd (by omega) hdvd) (by omega)

theorem wadd_small (a b : ℕ) (h : a + b < U64) : wadd a b = a + b :=
  Nat.mod_eq_of_lt h

theorem wsub_small (a b : ℕ) (h1 : b ≤ a) (h2 : a < U64) : wsub a b = a - b := by
  have hb : b % U64 = b := Nat.mod_eq_of_lt (by omega)
  show (a + U64 - b % U64) % U64 = a - b
  rw [hb, show a + U64 - b = (a - b) + U64 by omega, Nat.add_mod_right]
  exact Nat.mod_eq_of_lt (by omega)

theorem get_latest_index (w n i : ℕ)
    (hn : n ≤ 2048) (hi : i < n) (hw : w + 2048 < U64) :
    wadd (wsub (wadd w 2048) n) i = w + 2048 - n + i := by
  rw [wadd_small _ _ hw, wsub_small _ _ (by omega) (by omega),
    wadd_small _ _ (by omega)]

theorem get_latest_push (b : FftSampleBuffer) (x : ℚ) (m : ℕ)
    (hm : m + 1 ≤ 2048) (hw : b.write_pos + 2049 < U64) :
    (b.push x).get_latest (m + 1) = b.get_latest m ++ [x] := by
  simp only [FftSampleBuffer.get_latest, FftSampleBuffer.push]
  rw [wadd_small b.write_pos 1 (by omega)]
  rw [List.range_succ, List.map_append, List.map_cons, List.map_nil]
  congr 1
  · apply List.map_congr_left
    intro i hi
    have him : i < m := List.mem_range.mp hi
    have hL : wadd (wsub (wadd (b.write_pos + 1) 2048) (m + 1)) i
        = b.write_pos + 2048 - (m - i) := by
      rw [get_latest_index (b.write_pos + 1) (m + 1) i (by omega) (by omega) (by omega)]
      omega
    have hR : wadd (wsub (wadd b.write_pos 2048) m) i
        = b.write_pos + 2048 - (m - i) := by
      rw [get_latest_index b.write_pos m i (by omega) (by omega) (by omega)]
      omega
    show Function.update b.buffer (b.write_pos % 2048) x _ = b.buffer _
    rw [hL, hR]
    exact Function.update_noteq
      (slot_mod_ne b.write_pos (m - i) (by omega) (by omega)) x b.buffer
  · have hL : wadd (wsub (wadd (b.write_pos + 1) 2048) (m + 1)) m
        = b.write_pos + 2048 := by
      rw [get_latest_index (b.write_pos + 1) (m + 1) m (by omega) (by omega) (by omega)]
      omega
    show [Function.update b.buffer (b.write_pos % 2048) x _] = [x]
    rw [hL, Nat.add_mod_right, Function.update_same]

theorem ring_from_clean (xs : List ℚ) : ∀ n : ℕ, n ≤ 2048 → n ≤ xs.length →
    xs.length + 2048 < U64 →
    (pushList FftSampleBuffer.init xs).get_latest n = xs.drop (xs.length - n) := by
  induction xs using List.reverseRecOn with
  | nil =>
      intro n h1 h2 h3
      have : n = 0 := by simpa using h2
      subst this
      rfl
  | append_singleton xs x ih =>
      intro n hn hnk hk
      have hlen : (xs ++ [x]).length = xs.length + 1 := by simp
      rw [hlen] at hnk hk
      rcases Nat.eq_zero_or_pos n with hz | hpos
      · subst hz
        rw [List.drop_eq_nil_of_le (by omega)]
        show (List.range 0).map _ = []
        rfl
      · obtain ⟨m, rfl⟩ : ∃ m, n = m + 1 := ⟨n - 1, by omega⟩
        rw [pushList_append_singleton]
        have hwrote : (pushList FftSampleBuffer.init xs).write_pos = xs.length := by
          have h0 : (FftSampleBuffer.init).write_pos < U64 := U64_pos
          rw [pushList_write_pos _ _ h0]
          show (0 + xs.length) % U64 = xs.length
          rw [Nat.zero_add]
          exact Nat.mod_eq_of_lt (by omega)
        rw [get_latest_push _ _ _ (by omega) (by rw [hwrote]; omega)]
        rw [ih m (by omega) (by omega) (by omega)]
        rw [hlen, show xs.length + 1 - (m + 1) = xs.length - m by omega]
        rw [List.drop_append_of_le_length (by omega)]

/-! Helper lemmas about the pan stage. -/

theorem panGain_parity (p : ℚ) (a b : ℕ) (h : a % 2 = b % 2) :
    panGain p a = panGain p b := by
  unfold panGain
  rw [h]

theorem pannedRun_stereo (p : ℚ) (xs : List ℚ) :
    ∀ c : ℕ, pannedRun { pan := p, channels := 2, current_channel := c % 2 } xs
      = panApply p c xs := by
  induction xs with
  | nil => intro c; rfl
  | cons x xs ih =>
      intro c
      show (pannedNext _ x).1 :: pannedRun (pannedNext _ x).2 xs = _
      have hnext : pannedNext { pan := p, channels := 2, current_channel := c % 2 } x
          = (x * panGain p c,
             { pan := p, channels := 2, current_channel := (c + 1) % 2 }) := by
        simp only [pannedNext, panGain, eq_self_iff_true, if_true]
        rw [Nat.mod_add_mod]
      rw [hnext]
      show x * panGain p c :: pannedRun _ xs = x * panGain p c :: panApply p (c + 1) xs
      rw [ih (c + 1)]

theorem pannedRun_nonstereo (st : PannedState) (h : st.channels ≠ 2) :
    ∀ xs : List ℚ, pannedRun st xs = xs := by
  intro xs
  induction xs with
  | nil => rfl
  | cons x xs ih =>
      show (pannedNext st x).1 :: pannedRun (pannedNext st x).2 xs = x :: xs
      rw [show pannedNext st x = (x, st) from if_neg h]
      rw [ih]

theorem panApply_getD (p : ℚ) (xs : List ℚ) :
    ∀ c i : ℕ, (panApply p c xs).getD i 0 = xs.getD i 0 * panGain p (c + i) := by
  induction xs with
  | nil => intro c i; simp [panApply]
  | cons x xs ih =>
      intro c i
      cases i with
      | zero => simp [panApply]
      | succ i =>
          show (panApply p (c + 1) xs).getD i 0 = xs.getD i 0 * panGain p (c + (i + 1))
          rw [ih (c + 1) i]
          congr 1
          apply panGain_parity
          omega

theorem panGain_zero_pan (c : ℕ) : panGain 0 c = 1 := by
  unfold panGain
  split <;> norm_num

theorem panApply_zero_pan (xs : List ℚ) : ∀ c : ℕ, panApply 0 c xs = xs := by
  induction xs with
  | nil => intro c; rfl
  | cons x xs ih =>
      intro c
      show x * panGain 0 c :: panApply 0 (c + 1) xs = x :: xs
      rw [panGain_zero_pan, mul_one, ih]

theorem new_stereo_state (p : ℚ) (h1 : -1 ≤ p) (h2 : p ≤ 1) :
    PannedState.new p 2 = { pan := p, channels := 2, current_channel := 0 % 2 } := by
  unfold PannedState.new
  rw [max_eq_right h1, min_eq_right h2]

/-! Helper lemmas about the reverb stage. -/

theorem reverbRun_passthrough (xs : List ℚ) :
    ∀ st : ReverbState, st.mix < 1/1000 → reverbRun st xs = xs := by
  induction xs with
  | nil => intro st h; rfl
  | cons x xs ih =>
      intro st h
      show (reverbNext st x).1 :: reverbRun (reverbNext st x).2 xs = x :: xs
      rw [show reverbNext st x
          = (x, { st with current_channel := (st.current_channel + 1) % st.channels })
        from if_pos h]
      exact congrArg (x :: ·) (ih _ h)

theorem getD_set_ne {α : Type} (l : List α) (i j : ℕ) (a d : α) (h : i ≠ j) :
    (l.set i a).getD j d = l.getD j d := by
  induction l generalizing i j with
  | nil => rfl
  | cons y ys ih =>
      cases i with
      | zero =>
          cases j with
          | zero => exact absurd rfl h
          | succ j => rfl
      | succ i =>
          cases j with
          | zero => rfl
          | succ j => exact ih i j (by omega)

/-! The C8 claim theorem and its witness. -/

/-- Claim C8: starting from a cleared ring, after any sequence of k pushes
of values x1..xk (k small enough that the usize write index does not
wrap), get_latest n with n at most 2048 and at most k returns exactly the
last n pushed values in push order, and clear resets the write index to 0
and zeroes every entry. -/
theorem c8_ring_get_latest (xs : List ℚ) (n : ℕ)
    (hn : n ≤ 2048) (hnk : n ≤ xs.length) (hk : xs.length + 2048 < U64) :
    (pushList FftSampleBuffer.init xs).get_latest n = xs.drop (xs.length - n) ∧
    (∀ b : FftSampleBuffer, b.clear.write_pos = 0 ∧ ∀ i, b.clear.buffer i = 0) :=
  ⟨ring_from_clean xs n hn hnk hk, fun _ => ⟨rfl, fun _ => rfl⟩⟩

/-- Witness for C8 at the concrete push sequence [2, 3, 5] with n = 2. -/
theorem c8_ring_get_latest_witness :
    (pushList FftSampleBuffer.init [2, 3, 5]).get_latest 2
        = [2, 3, 5].drop ([2, 3, 5].length - 2) ∧
    (∀ b : FftSampleBuffer, b.clear.write_pos = 0 ∧ ∀ i, b.clear.buffer i = 0) :=
  c8_ring_get_latest [2, 3, 5] 2 (by norm_num) (by norm_num)
    (by norm_num [U64])

/-! The C5 claim theorem and its witness. -/

/-- Claim C5: on a 2-channel stream the pan stage scales frame channel 0
by 1 when pan is nonpositive and by 1 - pan otherwise, and frame channel 1
by 1 when pan is nonnegative and by 1 + pan otherwise (panApply/panGain);
pan -1 silences every odd-indexed (right) sample, pan 1 silences every
even-indexed (left) sample, pan 0 is the identity, and a stream whose
channel count is not 2 passes through unchanged. -/
theorem c5_pan_gains (p : ℚ) (hp1 : -1 ≤ p) (hp2 : p ≤ 1)
    (xs : List ℚ) (c : ℕ) (hc : c ≠ 2) (i : ℕ) :
    pannedRun (PannedState.new p 2) xs = panApply p 0 xs ∧
    (i % 2 = 1 → (pannedRun (PannedState.new (-1) 2) xs).getD i 0 = 0) ∧
    (i % 2 = 0 → (pannedRun (PannedState.new 1 2) xs).getD i 0 = 0) ∧
    pannedRun (PannedState.new 0 2) xs = xs ∧
    pannedRun (PannedState.new p c) xs = xs := by
  refine ⟨?_, ?_, ?_, ?_, ?_⟩
  · rw [new_stereo_state p hp1 hp2, pannedRun_stereo]
  · intro hodd
    rw [new_stereo_state (-1) (by norm_num) (by norm_num), pannedRun_stereo,
      panApply_getD]
    have : panGain (-1) (0 + i) = 0 := by
      unfold panGain
      rw [if_neg (by omega)]
      norm_num
    rw [this, mul_zero]
  · intro heven
    rw [new_stereo_state 1 (by norm_num) (by norm_num), pannedRun_stereo,
      panApply_getD]
    have : panGain 1 (0 + i) = 0 := by
      unfold panGain
      rw [if_pos (by omega)]
      norm_num
    rw [this, mul_zero]
  · rw [new_stereo_state 0 (by norm_num) (by norm_num), pannedRun_stereo,
      panApply_zero_pan]
  · exact pannedRun_nonstereo _ hc xs

/-- Witness for C5 at pan 1/2, the stream [4, 6], channel count 3, index 1. -/
theorem c5_pan_gains_witness :
    pannedRun (PannedState.new (1/2) 2) [4, 6] = panApply (1/2) 0 [4, 6] ∧
    ((1 : ℕ) % 2 = 1 → (pannedRun (PannedState.new (-1) 2) [4, 6]).getD 1 0 = 0) ∧
    ((1 : ℕ) % 2 = 0 → (pannedRun (PannedState.new 1 2) [4, 6]).getD 1 0 = 0) ∧
    pannedRun (PannedState.new 0 2) [4, 6] = [4, 6] ∧
    pannedRun (PannedState.new (1/2) 3) [4, 6] = [4, 6] :=
  c5_pan_gains (1/2) (by norm_num) (by norm_num) [4, 6] 3 (by norm_num) 1

/-! The C6 claim theorem and its witness. -/

/-- Claim C6: when the mix is below 0.001 the reverb stage passes every
sample through unchanged; otherwise each output sample equals
dry times (1 - mix) plus wet times mix times 2.5, where the wet value is
the four parallel feedback-0.95 comb filters averaged by the 0.25 factor
followed by the two series coefficient-0.7 allpass filters (channelWet)
of the current channel state; the filter state of every other channel is
untouched by the step. -/
theorem c6_reverb (st : ReverbState) (xs : List ℚ) (x : ℚ) (j : ℕ) :
    (st.mix < 1/1000 → reverbRun st xs = xs) ∧
    (1/1000 ≤ st.mix →
      (reverbNext st x).1 =
        x * (1 - st.mix)
          + (channelWet x (st.chans.getD st.current_channel
              { combs := [], allpasses := [] })).1 * st.mix * (5/2)) ∧
    (j ≠ st.current_channel →
      ((reverbNext st x).2).chans.getD j { combs := [], allpasses := [] }
        = st.chans.getD j { combs := [], allpasses := [] }) := by
  refine ⟨fun h => reverbRun_passthrough xs st h, ?_, ?_⟩
  · intro h
    rw [show reverbNext st x = (x * (1 - st.mix)
        + (channelWet x (st.chans.getD st.current_channel
            { combs := [], allpasses := [] })).1 * st.mix * (5/2),
        { st with current_channel := (st.current_channel + 1) % st.channels
                  chans := st.chans.set st.current_channel
                    (channelWet x (st.chans.getD st.current_channel
                      { combs := [], allpasses := [] })).2 })
      from if_neg (not_lt.mpr h)]
  · intro hj
    by_cases h : st.mix < 1/1000
    · rw [show reverbNext st x
          = (x, { st with current_channel := (st.current_channel + 1) % st.channels })
        from if_pos h]
    · rw [show reverbNext st x = (x * (1 - st.mix)
          + (channelWet x (st.chans.getD st.current_channel
              { combs := [], allpasses := [] })).1 * st.mix * (5/2),
          { st with current_channel := (st.current_channel + 1) % st.channels
                    chans := st.chans.set st.current_channel
                      (channelWet x (st.chans.getD st.current_channel
                        { combs := [], allpasses := [] })).2 })
        from if_neg h]
      exact getD_set_ne _ _ _ _ _ (fun hh => hj hh.symm)

/-- Witness for C6 at a mix-0 state on [3, 5] and a mix-1/2 state on the
sample 2, other channel index 1. -/
theorem c6_reverb_witness :
    reverbRun { mix := 0, channels := 2, current_channel := 0, chans := [] } [3, 5]
        = [3, 5] ∧
    (reverbNext { mix := 1/2, channels := 1, current_channel := 0, chans := [] } 2).1
      = 2 * (1 - (1/2 : ℚ))
        + (channelWet 2 (([] : List ChannelReverb).getD 0
            { combs := [], allpasses := [] })).1 * (1/2) * (5/2) :=
  ⟨(c6_reverb { mix := 0, channels := 2, current_channel := 0, chans := [] }
      [3, 5] 0 1).1 (by norm_num),
   (c6_reverb { mix := 1/2, channels := 1, current_channel := 0, chans := [] }
      [3, 5] 2 1).2.1 (by norm_num)⟩

/-! Helper lemmas about the A/B state machine. -/

theorem genRange_self (r k : ℕ) : genRange r k k = k := by
  simp [genRange, Nat.mod_one]

theorem abTick_playing_a (settings : AmbientSettings) (s : AmbMachineState)
    (rP rL : ℕ) (hp : s.is_paused = false) (ha : s.is_playing_a = true) :
    abTick settings s rP rL true
      = ({ s with is_playing_a := false }, some EnqFile.B) := by
  unfold abTick
  rw [hp, ha]
  simp

theorem abTick_playing_b_loop1 (settings : AmbientSettings) (s : AmbMachineState)
    (rP rL : ℕ)
    (h1 : settings.repeat_min = 1) (h2 : settings.repeat_max = 1)
    (h3 : settings.pause_min = 0) (h4 : settings.pause_max = 0)
    (hp : s.is_paused = false) (ha : s.is_playing_a = false)
    (hl : s.loops_remaining = 1) :
    abTick settings s rP rL true
      = ({ s with loops_remaining := 1, is_playing_a := true }, some EnqFile.A) := by
  unfold abTick
  rw [hp, ha, hl, h1, h2, h3, h4]
  simp [genRange, Nat.mod_one]

theorem c9_invariant (settings : AmbientSettings)
    (h1 : settings.repeat_min = 1) (h2 : settings.repeat_max = 1)
    (h3 : settings.pause_min = 0) (h4 : settings.pause_max = 0)
    (oracle : ℕ → ℕ × ℕ) (r : ℕ) :
    ∀ n : ℕ,
      (abIterate settings oracle (abInit settings r) n).is_paused = false ∧
      (abIterate settings oracle (abInit settings r) n).loops_remaining = 1 ∧
      (abIterate settings oracle (abInit settings r) n).is_playing_a
        = decide (n % 2 = 0) := by
  intro n
  induction n with
  | zero =>
      refine ⟨rfl, ?_, rfl⟩
      show genRange r settings.repeat_min settings.repeat_max = 1
      rw [h1, h2, genRange_self]
  | succ n ih =>
      obtain ⟨hp, hl, ha⟩ := ih
      have hstep : abIterate settings oracle (abInit settings r) (n + 1)
          = (abTick settings (abIterate settings oracle (abInit settings r) n)
              (oracle n).1 (oracle n).2 true).1 := rfl
      by_cases hev : n % 2 = 0
      · have ha' : (abIterate settings oracle (abInit settings r) n).is_playing_a
            = true := by rw [ha, hev]; rfl
        rw [hstep, abTick_playing_a settings _ _ _ hp ha']
        refine ⟨hp, hl, ?_⟩
        show false = decide ((n + 1) % 2 = 0)
        have : (n + 1) % 2 = 1 := by omega
        rw [this]
        rfl
      · have ha' : (abIterate settings oracle (abInit settings r) n).is_playing_a
            = false := by rw [ha]; simp [hev]
        rw [hstep,
          abTick_playing_b_loop1 settings _ _ _ h1 h2 h3 h4 hp ha' hl]
        refine ⟨hp, rfl, ?_⟩
        show true = decide ((n + 1) % 2 = 0)
        have : (n + 1) % 2 = 0 := by omega
        rw [this]
        rfl

/-! The C9 claim theorem and its witness. -/

/-- Claim C9: for a voice whose settings have repeat_min = repeat_max = 1
and pause_min = pause_max = 0, the A/B machine started by PlayAmbient
never enters the paused state over any number of sink-empty events and
alternates between playing A (even events) and playing B (odd events),
enqueuing file B on every event that leaves A and file A on every event
that leaves B, for every random stream. -/
theorem c9_ab_alternates (settings : AmbientSettings)
    (h1 : settings.repeat_min = 1) (h2 : settings.repeat_max = 1)
    (h3 : settings.pause_min = 0) (h4 : settings.pause_max = 0)
    (oracle : ℕ → ℕ × ℕ) (r : ℕ) (n : ℕ) :
    (abIterate settings oracle (abInit settings r) n).is_paused = false ∧
    (abIterate settings oracle (abInit settings r) n).is_playing_a
      = decide (n % 2 = 0) ∧
    (abTick settings (abIterate settings oracle (abInit settings r) n)
        (oracle n).1 (oracle n).2 true).2
      = some (if n % 2 = 0 then EnqFile.B else EnqFile.A) := by
  obtain ⟨hp, hl, ha⟩ := c9_invariant settings h1 h2 h3 h4 oracle r n
  refine ⟨hp, ha, ?_⟩
  by_cases hev : n % 2 = 0
  · have ha' : (abIterate settings oracle (abInit settings r) n).is_playing_a
        = true := by rw [ha, hev]; rfl
    rw [abTick_playing_a settings _ _ _ hp ha', if_pos hev]
  · have ha' : (abIterate settings oracle (abInit settings r) n).is_playing_a
        = false := by rw [ha]; simp [hev]
    rw [abTick_playing_b_loop1 settings _ _ _ h1 h2 h3 h4 hp ha' hl,
      if_neg hev]

/-- Witness for C9 at the default settings, the constant (0, 0) oracle,
draw 0 and event index 1. -/
theorem c9_ab_alternates_witness :
    (abIterate AmbientSettings.default (fun _ => (0, 0))
        (abInit AmbientSettings.default 0) 1).is_paused = false ∧
    (abIterate AmbientSettings.default (fun _ => (0, 0))
        (abInit AmbientSettings.default 0) 1).is_playing_a
      = decide (1 % 2 = 0) ∧
    (abTick AmbientSettings.default
        (abIterate AmbientSettings.default (fun _ => (0, 0))
          (abInit AmbientSettings.default 0) 1)
        ((fun _ => ((0 : ℕ), (0 : ℕ))) 1).1 ((fun _ => ((0 : ℕ), (0 : ℕ))) 1).2
        true).2
      = some (if 1 % 2 = 0 then EnqFile.B else EnqFile.A) :=
  c9_ab_alternates AmbientSettings.default rfl rfl rfl rfl (fun _ => (0, 0)) 0 1

/-! The C10 claim theorem and its witness. -/

/-- Claim C10: when file B finishes with loops_remaining already 0
(possible when repeat_min = 0), the saturating decrement keeps
loops_remaining at 0 without underflow, the step behaves exactly as the
normal decrement from 1, and the machine proceeds to the pause / new-cycle
decision: a positive pause draw enters the paused state with
pause_remaining set to five times the draw, a zero draw starts a fresh
cycle on file A with a new loops draw. -/
theorem c10_saturating_cycle_complete (settings : AmbientSettings)
    (s : AmbMachineState) (rP rL : ℕ) (lo : Bool)
    (hA : s.is_playing_a = false) (hP : s.is_paused = false)
    (hL : s.loops_remaining = 0) :
    abTick settings s rP rL lo
      = abTick settings { s with loops_remaining := 1 } rP rL lo ∧
    (abTick settings s rP rL lo).1.loops_remaining
      = (if 0 < genRange rP settings.pause_min settings.pause_max then 0
         else genRange rL settings.repeat_min settings.repeat_max) ∧
    (0 < genRange rP settings.pause_min settings.pause_max →
      (abTick settings s rP rL lo).1.is_paused = true ∧
      (abTick settings s rP rL lo).1.pause_remaining
        = (genRange rP settings.pause_min settings.pause_max : ℚ) * 5) ∧
    (genRange rP settings.pause_min settings.pause_max = 0 →
      (abTick settings s rP rL lo).1.is_playing_a = true ∧
      (abTick settings s rP rL lo).2
        = (if lo then some EnqFile.A else none)) := by
  obtain ⟨a, l, pr, ip⟩ := s
  simp only at hA hP hL
  subst hA
  subst hP
  subst hL
  by_cases hp : 0 < genRange rP settings.pause_min settings.pause_max
  · refine ⟨?_, ?_, fun _ => ⟨?_, ?_⟩, fun hz => absurd hp (by omega)⟩ <;>
      simp [abTick, hp]
  · have hz : genRange rP settings.pause_min settings.pause_max = 0 := by omega
    refine ⟨?_, ?_, fun hpos => absurd hpos (by omega), fun _ => ⟨?_, ?_⟩⟩ <;>
      simp [abTick, hp, hz]

/-- Witness for C10 at the default settings and the stuck state with zero
loops remaining. -/
theorem c10_saturating_cycle_complete_witness :
    abTick AmbientSettings.default
        { is_playing_a := false, loops_remaining := 0
          pause_remaining := 0, is_paused := false } 0 0 true
      = abTick AmbientSettings.default
          { is_playing_a := false, loops_remaining := 1
            pause_remaining := 0, is_paused := false } 0 0 true ∧
    (abTick AmbientSettings.default
        { is_playing_a := false, loops_remaining := 0
          pause_remaining := 0, is_paused := false } 0 0 true).1.loops_remaining
      = (if 0 < genRange 0 AmbientSettings.default.pause_min
              AmbientSettings.default.pause_max then 0
         else genRange 0 AmbientSettings.default.repeat_min
              AmbientSettings.default.repeat_max) ∧
    (0 < genRange 0 AmbientSettings.default.pause_min
        AmbientSettings.default.pause_max →
      (abTick AmbientSettings.default
          { is_playing_a := false, loops_remaining := 0
            pause_remaining := 0, is_paused := false } 0 0 true).1.is_paused = true ∧
      (abTick AmbientSettings.default
          { is_playing_a := false, loops_remaining := 0
            pause_remaining := 0, is_paused := false } 0 0 true).1.pause_remaining
        = (genRange 0 AmbientSettings.default.pause_min
            AmbientSettings.default.pause_max : ℚ) * 5) ∧
    (genRange 0 AmbientSettings.default.pause_min
        AmbientSettings.default.pause_max = 0 →
      (abTick AmbientSettings.default
          { is_playing_a := false, loops_remaining := 0
            pause_remaining := 0, is_paused := false } 0 0 true).1.is_playing_a
        = true ∧
      (abTick AmbientSettings.default
          { is_playing_a := false, loops_remaining := 0
            pause_remaining := 0, is_paused := false } 0 0 true).2
        = (if (true : Bool) then some EnqFile.A else none)) :=
  c10_saturating_cycle_complete AmbientSettings.default
    { is_playing_a := false, loops_remaining := 0
      pause_remaining := 0, is_paused := false } 0 0 true rfl rfl rfl

/-! The C4 claim: counterexample and amended bounds. -/

/-- Claim C4 as stated is false: with volume_variation 1/2, a random draw
of 7/8 and both masters at 1, the effective gain is 11/8, which exceeds
master times ambient_master = 1. -/
theorem c4_variation_exceeds_bound :
    calc_ambient_volume settingsVar 1 1 false false 0 0 (7/8) = 11/8 ∧
    (1 : ℚ) * 1 < calc_ambient_volume settingsVar 1 1 false false 0 0 (7/8) := by
  have h : calc_ambient_volume settingsVar 1 1 false false 0 0 (7/8) = 11/8 := by
    norm_num [calc_ambient_volume, settingsVar, AmbientSettings.default]
  exact ⟨h, by rw [h]; norm_num⟩

/-- Claim C4 amended: under the data-model ranges the effective ambient
gain is at least 0 and at most master times ambient_master times
(1 + volume_variation); the bound master times ambient_master alone holds
only when volume_variation is 0, since the per-enqueue random multiplier
can reach 1 + volume_variation. -/
theorem c4_amended_bounds (s : AmbientSettings) (am m dp da r : ℚ)
    (amu mmu : Bool)
    (hv0 : 0 ≤ s.volume) (hv1 : s.volume ≤ 1)
    (hvv : 0 ≤ s.volume_variation)
    (ham : 0 ≤ am) (hm : 0 ≤ m) (hr0 : 0 ≤ r) (hr1 : r ≤ 1)
    (hdp0 : 0 ≤ dp) (hdp1 : dp ≤ 1) (hda0 : 0 ≤ da) (hda1 : da ≤ 1) :
    0 ≤ calc_ambient_volume s am m amu mmu dp da r ∧
    calc_ambient_volume s am m amu mmu dp da r
      ≤ am * m * (1 + s.volume_variation) := by
  unfold calc_ambient_volume
  by_cases hmu : (amu || mmu) = true
  · rw [if_pos hmu]
    refine ⟨le_refl 0, ?_⟩
    have h1 : (0 : ℚ) ≤ 1 + s.volume_variation := by linarith
    exact mul_nonneg (mul_nonneg ham hm) h1
  · rw [if_neg hmu]
    show 0 ≤ s.volume * am * m *
        (if 0 < s.volume_variation then
          min 2 (max 0 (1 + (r - 1/2) * 2 * s.volume_variation)) else 1)
        * (1 - dp * da) ∧
      s.volume * am * m *
        (if 0 < s.volume_variation then
          min 2 (max 0 (1 + (r - 1/2) * 2 * s.volume_variation)) else 1)
        * (1 - dp * da) ≤ am * m * (1 + s.volume_variation)
    set v : ℚ := (if 0 < s.volume_variation then
        min 2 (max 0 (1 + (r - 1/2) * 2 * s.volume_variation)) else 1) with hv
    have hv_nonneg : 0 ≤ v := by
      rw [hv]
      split
      · exact le_min (by norm_num) (le_max_left 0 _)
      · norm_num
    have hv_le : v ≤ 1 + s.volume_variation := by
      rw [hv]
      split
      · refine le_trans (min_le_right _ _) (max_le (by linarith) ?_)
        nlinarith
      · linarith
    have hprod : 0 ≤ dp * da := mul_nonneg hdp0 hda0
    have hprod1 : dp * da ≤ 1 := by nlinarith
    have hdf0 : (0 : ℚ) ≤ 1 - dp * da := by linarith
    have hdf1 : 1 - dp * da ≤ 1 := by linarith
    have hbase : 0 ≤ s.volume * am * m * v :=
      mul_nonneg (mul_nonneg (mul_nonneg hv0 ham) hm) hv_nonneg
    constructor
    · exact mul_nonneg hbase hdf0
    · calc s.volume * am * m * v * (1 - dp * da)
          ≤ s.volume * am * m * v * 1 :=
            mul_le_mul_of_nonneg_left hdf1 hbase
        _ = s.volume * (am * m) * v := by ring
        _ ≤ 1 * (am * m) * (1 + s.volume_variation) := by
            apply mul_le_mul
            · exact mul_le_mul_of_nonneg_right hv1 (mul_nonneg ham hm)
            · exact hv_le
            · exact hv_nonneg
            · rw [one_mul]
              exact mul_nonneg ham hm
        _ = am * m * (1 + s.volume_variation) := by ring

/-- Witness for C4 amended at the concrete counterexample inputs. -/
theorem c4_amended_bounds_witness :
    0 ≤ calc_ambient_volume settingsVar 1 1 false false 0 0 (7/8) ∧
    calc_ambient_volume settingsVar 1 1 false false 0 0 (7/8)
      ≤ 1 * 1 * (1 + settingsVar.volume_variation) :=
  c4_amended_bounds settingsVar 1 1 0 0 (7/8) false false
    (by norm_num [settingsVar, AmbientSettings.default])
    (by norm_num [settingsVar, AmbientSettings.default])
    (by norm_num [settingsVar, AmbientSettings.default])
    (by norm_num) (by norm_num) (by norm_num) (by norm_num)
    (by norm_num) (by norm_num) (by norm_num) (by norm_num)

/-! The C7 claim: counterexample and amended pipeline. -/

/-- Claim C7 is false in its windowing part: the music ring FFT input is
Hann windowed while the ambient ring FFT input is the raw snapshot, so
the two preparations already differ on the sample list [1], where the
window coefficient at index 0 is 0. -/
theorem c7_ambient_window_differs :
    musicFftInput [1] ≠ ambientFftInput [1] := by
  have h1 : musicFftInput [1] = [0] := by
    unfold musicFftInput hannWindow
    norm_num
  have h2 : ambientFftInput [1] = [1] := by
    unfold ambientFftInput
    norm_num
  rw [h1, h2]
  intro h
  exact one_ne_zero (((List.cons.injEq 0 [] 1 []).mp h).1.symm)

/-- Claim C7 amended: both rings share the mean-of-8 magnitude binning of
the first 512 FFT bins into 64 buckets and the clamped logarithmic remap
clamp(ln(1 + 50 mag) / 5, 0, 1), but the Hann window
0.5 (1 - cos(2 pi i / 1023)) is applied to the music ring only: the
ambient ring FFT input is the unwindowed snapshot. -/
theorem c7_amended_pipeline (samples norms : List ℝ) (i : Fin 64) :
    musicFftInput samples
      = (ambientFftInput samples).mapIdx (fun k s => s * hannWindow k) ∧
    ambientFftInput samples = samples ∧
    (spectrumOf norms).getD i 0 = logRemap (binMag norms i) ∧
    (spectrumOf norms).length = 64 := by
  refine ⟨?_, ?_, ?_, ?_⟩
  · unfold musicFftInput ambientFftInput
    rw [List.map_id']
  · unfold ambientFftInput
    exact List.map_id' samples
  · unfold spectrumOf
    rw [List.getD_eq_getElem?_getD, List.getElem?_map, List.getElem?_range i.isLt]
    rfl
  · unfold spectrumOf
    rw [List.length_map, List.length_range]

/-! The C1 claim: counterexample and amended behaviour. -/

/-- Claim C1 is false for the code: a music Play whose file fails to open
or decode has already stopped the previously playing sink and overwritten
current_track with the new track, and a PlayAmbient whose load fails has
already removed and stopped the existing voice with the same id. -/
theorem c1_play_failure_not_noop :
    engineAfterPlayOk.current_sink = some 0 ∧
    engineAfterPlayFail.current_sink = none ∧
    engineAfterPlayFail.current_track ≠ engineAfterPlayOk.current_track ∧
    (0 : ℕ) ∈ engineAfterPlayFail.stopped_sinks ∧
    (alookup engineRainOk.ambient_states idRain).isSome = true ∧
    alookup engineRainFail.ambient_states idRain = none := by decide

/-- Claim C1 amended: a Play or PlayAmbient whose file open or decode
fails installs no new sink, voice or fade entry, but the handler has by
then already mutated state: Play has stopped the previous sink, cleared
the fade-out flag and set current_track to the new track; PlayAmbient has
removed the existing voice with the same id from the engine map and
stopped its sink (leaving active_ambients untouched).  State not touched
by those prefixes, in particular the other voices, is unchanged. -/
theorem c1_amended_failure_effects (e : Engine) (info : CurrentTrackInfo)
    (r : ℕ) (id fa fb : String) (s : AmbientSettings) :
    stepPlay e false info
      = { e with
          stopped_sinks :=
            (match e.current_sink with
             | some s0 => s0 :: e.stopped_sinks
             | none => e.stopped_sinks)
          current_sink := none
          fade_out_active := false
          current_track := some info } ∧
    (stepPlay e false info).ambient_states = e.ambient_states ∧
    (stepPlay e false info).active_ambients = e.active_ambients ∧
    stepPlayAmbient e true false r id fa fb s
      = (match alookup e.ambient_states id with
         | some old =>
            { e with ambient_states := aerase e.ambient_states id
                     stopped_sinks := old.sink :: e.stopped_sinks }
         | none => e) ∧
    (stepPlayAmbient e true false r id fa fb s).active_ambients
      = e.active_ambients ∧
    (stepPlayAmbient e true false r id fa fb s).current_sink
      = e.current_sink := by
  refine ⟨rfl, rfl, rfl, ?_, ?_, ?_⟩
  · unfold stepPlayAmbient
    cases alookup e.ambient_states id <;> rfl
  · unfold stepPlayAmbient
    cases alookup e.ambient_states id <;> rfl
  · unfold stepPlayAmbient
    cases alookup e.ambient_states id <;> rfl

/-! The C2 claim: the key-set invariant is violated by the failing
replacement path. -/

/-- Claim C2 is violated by the code: after PlayAmbient of rain succeeds
and a second PlayAmbient of rain fails its load, the engine-internal
ambient_states no longer contains rain while the shared active_ambients
still does, so the key sets differ at a stable point. -/
theorem c2_key_sets_diverge :
    akeys engineRainOk.ambient_states = akeys engineRainOk.active_ambients ∧
    akeys engineRainFail.ambient_states = [] ∧
    akeys engineRainFail.active_ambients = [idRain] := by decide

/-! The C3 claim: the stale fade-out entry kills the replacement voice. -/

/-- Claim C3 is violated by the code: replaying id thunder while its
fade-out entry is at progress 1/4 does not cancel the entry; the entry
keeps advancing and, on reaching 1, removes the replacement voice from
both maps. -/
theorem c3_fade_out_not_cancelled :
    alookup engineThunder4.fading_out idThunder = some (1/4) ∧
    (alookup engineThunder4.ambient_states idThunder).isSome = true ∧
    alookup engineThunder7.ambient_states idThunder = none ∧
    alookup engineThunder7.active_ambients idThunder = none := by
  refine ⟨?_, ?_, ?_, ?_⟩ <;>
    norm_num [engineThunder7, engineThunder4, engineThunder3, stepFadeTick,
      stepPlayAmbient, stepStopAmbient, initEngine, alookup, ainsert, aerase,
      idThunder, AmbientSettings.default, genRange]

end Soundscapes
